import Mathlib

set_option maxRecDepth 100000

/-!
Verification of the Localization_scripts repository: a shallow embedding of
the resilient HTTP request loop, the pagination loop, the key-link scheduler
(KeyLinkr.py), the per-project user-quota pruning (remove_excess_users.py),
and the bulk-import row step (Import tool), together with theorems settling
the specification claims about them.

Conventions of the embedding:
- machine integers are Nat/Int; timestamps are Int (datetime.strptime on a
  well-formed string is modelled as the parsed value itself, a missing
  dict key as none);
- the network is an explicit input: a function from attempt number (or page
  number, or query) to the response the server gives there;
- fallible paths are explicit constructors (an exception that propagates is
  a dedicated outcome constructor, not a Lean exception);
- sleeps are instrumented: the delay passed to each asyncio.sleep call is
  recorded, in order, in a trace list.
-/

/- ===================================================================
   Part A: KeyLinkr.py, request_with_retries (lines 34-81)
   =================================================================== -/

/-- Decimal digits to the Nat they spell, most significant first. -/
def digitsToNat (digits : List Char) : Nat :=
  digits.foldl (fun acc d => acc * 10 + (d.toNat - 48)) 0

/-- Python int(s) on a string, as used on the Retry-After header: surrounding
whitespace is stripped, an optional sign is allowed, then decimal digits.
(Python also accepts underscore digit separators; no header in scope uses
them, so they are not modelled.) Returns none where int() raises ValueError. -/
def pyParseInt (s : String) : Option Int :=
  let cs := ((s.data.dropWhile Char.isWhitespace).reverse.dropWhile Char.isWhitespace).reverse
  match cs with
  | [] => none
  | c :: rest =>
    let neg := c = '-'
    let digits := if c = '-' then rest else if c = '+' then rest else c :: rest
    if !digits.isEmpty && digits.all Char.isDigit then
      some (if neg then -(digitsToNat digits : Int) else (digitsToNat digits : Int))
    else none

/-- One HTTP response as seen by request_with_retries: the status code, the raw
Retry-After header when present, and the json.loads result of the body when
the body decodes (none models a JSONDecodeError, which the source maps to {}). -/
structure HttpResponse (β : Type) where
  status : Nat
  retryAfter : Option String
  decoded : Option β
deriving DecidableEq

/-- What one attempt of session.request yields: a response, or a
ClientConnectionError raised by the transport. -/
inductive Attempt (β : Type) where
  | resp (r : HttpResponse β)
  | connError
deriving DecidableEq

/-- The ways request_with_retries ends.
pair is the normal `return response, data`; bare is the `return response`
taken when a 429 arrives with retries exhausted; connErrorRaised is the
re-raised ClientConnectionError; maxRetriesRaised is the final
`raise Exception("Max retries exceeded ...")` after the while loop. -/
inductive ReqOutcome (β : Type) where
  | pair (r : HttpResponse β) (data : β)
  | bare (r : HttpResponse β)
  | connErrorRaised
  | maxRetriesRaised
deriving DecidableEq

/-- The observable behaviour of one request_with_retries call: the delays
passed to asyncio.sleep in order, and how the call ended. -/
structure ReqTrace (β : Type) where
  sleeps : List Int
  outcome : ReqOutcome β
deriving DecidableEq

/-- The delay computed for a 429 response at attempt counter `retries`:
`int(retry_after) if retry_after is not None else (2 ** retries)`, with a
ValueError from int() also falling back to `2 ** retries`. -/
def backoff429Delay (retryAfter : Option String) (retries : Nat) : Int :=
  match retryAfter with
  | some s => (pyParseInt s).getD ((2 : Int) ^ retries)
  | none => (2 : Int) ^ retries

/-- The `while retries <= max_retries` loop of request_with_retries.
`fuel` is a structural handle on the iteration count; request_with_retries
passes max_retries + 1, which the loop can never exhaust (each iteration
either returns, raises, or increments retries, and the guard fails once
retries exceeds max_retries), so the fuel-out row returns the same
maxRetriesRaised outcome as the guard-failure row it coincides with. -/
def request_with_retries_go {β : Type} (emptyBody : β) (attempts : Nat → Attempt β)
    (max_retries : Nat) : Nat → Nat → ReqTrace β
  | 0, _ => ⟨[], ReqOutcome.maxRetriesRaised⟩
  | fuel + 1, retries =>
    if max_retries < retries then ⟨[], ReqOutcome.maxRetriesRaised⟩
    else
      match attempts retries with
      | Attempt.resp r =>
        if r.status ≠ 429 then
          ⟨[], ReqOutcome.pair r (r.decoded.getD emptyBody)⟩
        else if max_retries ≤ retries then
          ⟨[], ReqOutcome.bare r⟩
        else
          let rest := request_with_retries_go emptyBody attempts max_retries fuel (retries + 1)
          ⟨backoff429Delay r.retryAfter retries :: rest.sleeps, rest.outcome⟩
      | Attempt.connError =>
        if max_retries ≤ retries then
          ⟨[], ReqOutcome.connErrorRaised⟩
        else
          let rest := request_with_retries_go emptyBody attempts max_retries fuel (retries + 1)
          ⟨(2 : Int) ^ retries :: rest.sleeps, rest.outcome⟩

/-- request_with_retries: retries = 0, max_retries = 10 as in the source. -/
def request_with_retries {β : Type} (emptyBody : β) (attempts : Nat → Attempt β) : ReqTrace β :=
  request_with_retries_go emptyBody attempts 10 11 0

/-- An attempt that makes the loop sleep and retry: a 429 response or a
connection error (any other response returns at once). -/
def attemptRetriable {β : Type} : Attempt β → Bool
  | Attempt.resp r => r.status == 429
  | Attempt.connError => true

/-- The outcomes that surface an error (an exception) to the caller. -/
def isExhaustionFailure {β : Type} : ReqOutcome β → Bool
  | ReqOutcome.connErrorRaised => true
  | ReqOutcome.maxRetriesRaised => true
  | _ => false

/-- The caller pattern `response, data = await request_with_retries(...)`:
it succeeds exactly on the two-element pair return; the bare-response return
(and a raised exception) cannot be unpacked into two values. -/
def destructureToPair {β : Type} : ReqOutcome β → Option (HttpResponse β × β)
  | ReqOutcome.pair r d => some (r, d)
  | _ => none

/-- A server that answers 429 with no Retry-After header on every attempt. -/
def always429 : Nat → Attempt Unit :=
  fun _ => Attempt.resp ⟨429, none, none⟩

/- ===================================================================
   Part B: KeyLinkr.py, get_all_keys (lines 124-162)
   =================================================================== -/

/-- The while loop of get_all_keys. `pages p` is the decoded body of the
page-`p` listing response (pages are 1-based), `headerTotal p` the
total_pages_count field of its Pagination header when that header is present
and decodes. The loop guard is `totalPage >= page`; the count parsed from the
header is bound to a DIFFERENT local name (total_pages, the dead let below)
and never read again, exactly as in the source, so the guard variable
totalPage keeps its initial value 1 for the whole traversal. The model takes
the success path (status 200) throughout: a non-200 page aborts the whole
run in the source and no claim is about that path. -/
def get_all_keys_loop {α : Type} (pages : Nat → List α) (headerTotal : Nat → Option Nat)
    (totalPage : Nat) (page : Nat) (keys : List α) : List α :=
  if h : page ≤ totalPage then
    let data := pages page
    let _total_pages := (headerTotal page).getD 1
    if data.isEmpty then keys
    else get_all_keys_loop pages headerTotal totalPage (page + 1) (keys ++ data)
  else keys
termination_by totalPage + 1 - page
decreasing_by omega

/-- get_all_keys: keys = [], page = 1, totalPage = 1 as in the source. -/
def get_all_keys {α : Type} (pages : Nat → List α) (headerTotal : Nat → Option Nat) : List α :=
  get_all_keys_loop pages headerTotal 1 1 []

/-- A synthetic two-page listing: one key per page, two keys in all. -/
def c1pages : Nat → List String :=
  fun p => if p = 1 then ["k1"] else if p = 2 then ["k2"] else []

/-- Its Pagination header: total_pages_count = 2 on every page. -/
def c1header : Nat → Option Nat := fun _ => some 2

/- ===================================================================
   Part C: KeyLinkr.py, main STEP 5 (lines 279-315), link scheduling
   =================================================================== -/

/-- A key record as used on the parent side: main reads both fields with
.get, so each may be absent. -/
structure PhraseKey where
  id : Option String
  name : Option String
deriving DecidableEq

/-- A key record on the child side: main indexes child_key["name"] and
child_key["id"] directly (a missing field there is an uncaught KeyError that
kills the run), so the model takes both fields as present. -/
structure ChildKey where
  name : String
  id : String
deriving DecidableEq

/-- Lookup in a Python dict built by a comprehension: insertion order with
overwrite on duplicate keys, so .get returns the LAST binding of the key. -/
def pyDictGetLast (entries : List (String × String)) (k : String) : Option String :=
  List.lookup k entries.reverse

/-- `parent_key_id in linked_keys_dict.keys() and (child_key_id in
linked_keys_dict.get(parent_key_id, []))`. -/
def alreadyLinkedToThisParent (linked : List (String × List String)) (pid cid : String) : Bool :=
  (List.lookup pid linked).isSome && decide (cid ∈ (List.lookup pid linked).getD [])

/-- `any(child_key_id in child_ids for child_ids in linked_keys_dict.values())`. -/
def alreadyLinkedAnywhere (linked : List (String × List String)) (cid : String) : Bool :=
  linked.any (fun e => decide (cid ∈ e.2))

/-- `if parent_key_id not in key_links_map: key_links_map[parent_key_id] = []`
followed by `key_links_map[parent_key_id].append(child_key_id)`, on the
insertion-ordered dict key_links_map. -/
def addLink : List (String × List String) → String → String → List (String × List String)
  | [], pid, cid => [(pid, [cid])]
  | (p, l) :: rest, pid, cid =>
    if p = pid then (p, l ++ [cid]) :: rest
    else (p, l) :: addLink rest pid cid

/-- The body of `for parent_key in parent_key_batch` in main STEP 5: skip a
parent with a falsy (missing or empty) id or name; look the parent name up in
child_key_map; a falsy hit is skipped; a hit already linked to this or any
observed parent is skipped; otherwise the child id is appended under the
parent id in key_links_map. -/
def linkStep (linked : List (String × List String)) (childMap : List (String × String))
    (m : List (String × List String)) (pk : PhraseKey) : List (String × List String) :=
  match pk.id, pk.name with
  | some pid, some pname =>
    if pid = "" || pname = "" then m
    else
      match pyDictGetLast childMap pname with
      | some cid =>
        if cid = "" then m
        else if alreadyLinkedToThisParent linked pid cid then m
        else if alreadyLinkedAnywhere linked cid then m
        else addLink m pid cid
      | none => m
  | _, _ => m

/-- `range(0, len(parent_keys), 100)` slicing: consecutive chunks of 100.
Structured on a fuel bounded by the list length; every step consumes at least
one element, so the fuel-out row is unreachable from chunks100. -/
def chunks100Go {α : Type} : Nat → List α → List (List α)
  | 0, _ => []
  | _, [] => []
  | fuel + 1, x :: xs => (x :: xs.take 99) :: chunks100Go fuel (xs.drop 99)

def chunks100 {α : Type} (xs : List α) : List (List α) := chunks100Go xs.length xs

/-- main STEP 5: for each batch of 100 parent keys, build the q_string from
the truthy parent names, fetch the matching keys of every child project
(childKeysFor takes the child project id and the q_string and returns the
decoded key list), and when the fetch is non-empty run linkStep over the
batch against child_key_map. Returns the final key_links_map; each of its
entries (pid, cids) becomes one create_key_link call. -/
def scheduleLinks (parent_keys : List PhraseKey) (child_projects : List String)
    (childKeysFor : String → String → List ChildKey)
    (linked : List (String × List String)) : List (String × List String) :=
  (chunks100 parent_keys).foldl
    (fun m batch =>
      let names := batch.filterMap
        (fun pk => match pk.name with
          | some n => if n = "" then none else some n
          | none => none)
      let q := "name:" ++ String.intercalate "," names
      child_projects.foldl
        (fun m cp =>
          let cks := childKeysFor cp q
          if cks.isEmpty then m
          else
            let childMap := cks.map (fun k => (k.name, k.id))
            batch.foldl (linkStep linked childMap) m)
        m)
    []

/-- All child ids named across the scheduled create_key_link calls, with
multiplicity: one occurrence per naming in a call payload. -/
def scheduledChildren : List (String × List String) → List String
  | [] => []
  | e :: rest => e.2 ++ scheduledChildren rest

/- ===================================================================
   Part D: remove_excess_users.py, remove_excess_users (lines 47-77)
   =================================================================== -/

/-- A user record: created_at is the strptime-parsed creation timestamp when
the key is present (a missing key raises KeyError in the source), id the user
identifier when present. -/
structure PUser where
  created_at : Option Int
  id : Option String
deriving DecidableEq

/-- USER_LIMIT = 150, the maximum allowed seats. -/
def USER_LIMIT : Nat := 150

/-- The sort key: strptime(u['created_at']). Only evaluated on users whose
created_at is present (the KeyError path is handled before sorting). -/
def userKey (u : PUser) : Int := u.created_at.getD 0

/-- The filter-then-sort of remove_excess_users: keep the users created
strictly after the cutoff, then stable-sort descending by creation time
(list.sort(key=..., reverse=True) keeps the original order of records with
equal keys; insertionSort with this relation is that stable descending sort). -/
def sortedCandidates (cutoff : Int) (users : List PUser) : List PUser :=
  List.insertionSort (fun a b => userKey b ≤ userKey a)
    (users.filter (fun u => cutoff < userKey u))

/-- How one project's iteration of remove_excess_users ends. noUsers is the
`if not users: continue` row; keyErrorSkip is the except KeyError around the
filter/sort, which abandons the WHOLE project's list; withinLimit is the
non-positive-excess row; removed carries the user ids actually passed to
remove_user (a user of the excess slice whose id key is missing is skipped
one by one by the inner except KeyError). -/
inductive ProjectResult where
  | noUsers
  | keyErrorSkip
  | withinLimit
  | removed (calls : List String)
deriving DecidableEq

/-- The per-project body of remove_excess_users. The comprehension
`[u for u in users if strptime(u['created_at']) > filter_timestamp]` reads
created_at of every user of the original list, so one missing timestamp
raises KeyError for the project as a whole; the sort key then only touches
survivors, which all carry the field. excess = len(users) - USER_LIMIT; when
positive, the first excess entries of the descending-sorted list are removed,
each removal reading u['id'] under its own per-user except KeyError. -/
def processProject (cutoff : Int) (users : List PUser) : ProjectResult :=
  if users.isEmpty then ProjectResult.noUsers
  else if users.all (fun u => u.created_at.isSome) then
    let sorted := sortedCandidates cutoff users
    let excess : Int := (sorted.length : Int) - (USER_LIMIT : Int)
    if 0 < excess then
      ProjectResult.removed ((sorted.take excess.toNat).filterMap (fun u => u.id))
    else ProjectResult.withinLimit
  else ProjectResult.keyErrorSkip

/-- The `for project in projects` loop of remove_excess_users: every project
is processed independently; no outcome of one project stops the loop. -/
def remove_excess_users (cutoff : Int) (projects : List (String × List PUser)) :
    List (String × ProjectResult) :=
  projects.map (fun p => (p.1, processProject cutoff p.2))

/-- n users, all created strictly after time 0, newest first (timestamps
n, n-1, ..., 1), every record complete with id "u". -/
def mkUsers (n : Nat) : List PUser :=
  (List.range n).map (fun i => ⟨some ((n : Int) - (i : Int)), some "u"⟩)

/-- A record with no creation timestamp at all. -/
def noStampUser : PUser := ⟨none, some "b"⟩

/- ===================================================================
   Part E: Import tool, validate_row and the bulk_import row step
   =================================================================== -/

/-- CSV_FIELDS: the required columns per entity type. -/
def CSV_FIELDS : List (String × List String) :=
  [("domain", ["name", "timezone"]),
   ("subdomain", ["name", "parent_domain_id"]),
   ("client", ["name"]),
   ("business_unit", ["name", "client_id"])]

/-- One normalized CSV row (process_csv lower-cases and strips the header
names and strips the values): field name to value, first binding wins as in
a Python dict built from a csv.DictReader row. -/
structure Row where
  entries : List (String × String)
deriving DecidableEq

/-- row.get(k): none models the None default for an absent column. -/
def Row.get (row : Row) (k : String) : Option String :=
  List.lookup k row.entries

/-- `not row.get(field)`: an absent column or an empty string is falsy. -/
def rowFieldTruthy (row : Row) (f : String) : Bool :=
  match row.get f with
  | none => false
  | some v => v ≠ ""

/-- validate_row: required = CSV_FIELDS[entity_type] (the caller has already
checked membership, so the lookup is defined); the row is valid when no
required field is missing or empty. -/
def validate_row (entity_type : String) (row : Row) : Bool :=
  let required := (List.lookup entity_type CSV_FIELDS).getD []
  (required.filter (fun f => !(rowFieldTruthy row f))).isEmpty

/-- Python str.lower(), ASCII case as used for the type column. -/
def pyLower (s : String) : String := ⟨s.data.map Char.toLower⟩

/-- The run statistics of bulk_import. -/
structure Stats where
  success : Nat
  errors : Nat
  skipped : Nat
deriving DecidableEq

/-- What client.create_entity comes back with when it is actually called:
a 409 conflict mapped to {'status': 'conflict'}, a truthy JSON body, a falsy
JSON body, or a raised exception (raise_for_status and friends, caught by the
per-row except). -/
inductive CreateResult where
  | conflict
  | created
  | emptyResult
  | raised
deriving DecidableEq

/-- Whether the row led to a create_entity call being issued. -/
inductive StepAction where
  | noCall
  | callCreate (entity_type : String)
deriving DecidableEq

/-- The body of `for row in process_csv(...)` in bulk_import: an empty or
unknown type column counts an error without any call; a row failing
validate_row counts an error without any call; a dry run counts a success
without any call; otherwise create_entity is called and its result is
classified (conflict → skipped, truthy → success, falsy → skipped,
exception → errors). The loop then continues with the next row in
every case. -/
def bulk_import_step (dry_run : Bool) (api : CreateResult) (stats : Stats) (row : Row) :
    Stats × StepAction :=
  let entity_type := pyLower ((row.get "type").getD "")
  if entity_type = "" || (List.lookup entity_type CSV_FIELDS).isNone then
    ({ stats with errors := stats.errors + 1 }, StepAction.noCall)
  else if !(validate_row entity_type row) then
    ({ stats with errors := stats.errors + 1 }, StepAction.noCall)
  else if dry_run then
    ({ stats with success := stats.success + 1 }, StepAction.noCall)
  else
    match api with
    | CreateResult.conflict =>
      ({ stats with skipped := stats.skipped + 1 }, StepAction.callCreate entity_type)
    | CreateResult.created =>
      ({ stats with success := stats.success + 1 }, StepAction.callCreate entity_type)
    | CreateResult.emptyResult =>
      ({ stats with skipped := stats.skipped + 1 }, StepAction.callCreate entity_type)
    | CreateResult.raised =>
      ({ stats with errors := stats.errors + 1 }, StepAction.callCreate entity_type)

/-- The claim's input row: {type: "client", name: ""}. -/
def c8row : Row := ⟨[("type", "client"), ("name", "")]⟩

/-- A server answering 429 with Retry-After: 5 on every attempt. -/
def retryAfter5 : Nat → Attempt Unit :=
  fun _ => Attempt.resp ⟨429, some "5", none⟩

/-- Two parent keys that share the name "n" (ids p1, p2). -/
def sameNameParents : List PhraseKey := [⟨some "p1", some "n"⟩, ⟨some "p2", some "n"⟩]

/-- One parent key of name "n" (id p1). -/
def oneParent : List PhraseKey := [⟨some "p1", some "n"⟩]

/-- A child project whose key fetch always returns the single key (n, x). -/
def oneChildX : String → String → List ChildKey := fun _ _ => [⟨"n", "x"⟩]

/-- An existing-links fetch that already links child x to parent p0. -/
def xAlreadyLinked : List (String × List String) := [("p0", ["x"])]

/- ===================================================================
   Theorems
   =================================================================== -/

/-- The foldl step preserves any invariant its step function preserves. -/
theorem foldl_invariant {α σ : Type} {P : σ → Prop} {f : σ → α → σ}
    (hf : ∀ s a, P s → P (f s a)) : ∀ (l : List α) (s : σ), P s → P (l.foldl f s) := by
  intro l
  induction l with
  | nil => intro s hs; exact hs
  | cons a t ih => intro s hs; exact ih (f s a) (hf s a hs)

/-- Whatever the pages and headers hold, the get_all_keys loop returns the
first page's items and nothing else: the loop guard variable totalPage is
never reassigned from the parsed header, so the guard fails at page 2. -/
theorem get_all_keys_eq_first_page {α : Type} (pages : Nat → List α)
    (headerTotal : Nat → Option Nat) : get_all_keys pages headerTotal = pages 1 := by
  unfold get_all_keys
  rw [get_all_keys_loop]
  rw [dif_pos (le_refl 1)]
  by_cases he : (pages 1).isEmpty
  · rw [if_pos he]
    exact (List.isEmpty_iff.mp he).symm
  · rw [if_neg he]
    rw [get_all_keys_loop]
    rw [dif_neg (by omega : ¬ (2 : Nat) ≤ 1)]
    exact List.nil_append _

/-- Claim C1 (the code violates it): a synthetic listing of M = 2 items split
across pages of size P = 1, with the pagination metadata header reporting a
total-page count of 2, is traversed by get_all_keys to only the first page's
single item, not all M items: the count parsed from the header lands in a
dead local and never reaches the loop guard. -/
theorem get_all_keys_drops_later_pages :
    get_all_keys c1pages c1header = ["k1"] ∧ get_all_keys c1pages c1header ≠ ["k1", "k2"] := by
  have h := get_all_keys_eq_first_page c1pages c1header
  have h1 : c1pages 1 = ["k1"] := rfl
  rw [h, h1]
  exact ⟨rfl, by decide⟩

/-- Claim C8: the input CSV row {type: "client", name: ""} is rejected by
validate_row for the missing required field name before any create_entity
call is issued; whatever the prior statistics, the dry-run flag and the state
of the API, the step changes the statistics by exactly errors + 1 and issues
no call, and the loop continues with the next row. -/
theorem client_row_missing_name_counts_error_without_call
    (stats : Stats) (dry_run : Bool) (api : CreateResult) :
    bulk_import_step dry_run api stats c8row =
      ({ stats with errors := stats.errors + 1 }, StepAction.noCall) := rfl

/-- Claim C2 (the code violates it): with a 429 on every attempt, retries are
exhausted after ten sleeps, and the call then ends in the comment-marked
`return response` row: a normal return of the bare response object, not an
exhaustion error (the final raise after the loop is unreachable on this
path). -/
theorem request_with_retries_429_no_exhaustion_error :
    (request_with_retries () always429).outcome = ReqOutcome.bare ⟨429, none, none⟩ ∧
    isExhaustionFailure (request_with_retries () always429).outcome = false ∧
    (request_with_retries () always429).sleeps.length = 10 := by
  exact ⟨rfl, rfl, rfl⟩

/-- In a run whose every attempt up to index m answers 429, the loop reaches
attempt m with retries = m and takes the bare-response return. -/
theorem rwrGo_all429 {β : Type} (emptyBody : β) (attempts : Nat → Attempt β) (m : Nat)
    (r : HttpResponse β) (hr : attempts m = Attempt.resp r)
    (H : ∀ j, j ≤ m → ∃ rj, attempts j = Attempt.resp rj ∧ rj.status = 429) :
    ∀ fuel retries, m < fuel + retries → retries ≤ m →
      (request_with_retries_go emptyBody attempts m fuel retries).outcome =
        ReqOutcome.bare r := by
  intro fuel
  induction fuel with
  | zero => intro retries h1 h2; omega
  | succ f ih =>
    intro retries h1 h2
    obtain ⟨rj, hj, hj429⟩ := H retries h2
    simp only [request_with_retries_go]
    rw [if_neg (show ¬ m < retries by omega)]
    rw [hj]
    dsimp only
    rw [if_neg (show ¬ rj.status ≠ 429 by simp [hj429])]
    by_cases hm : m ≤ retries
    · have heq : retries = m := le_antisymm h2 hm
      subst heq
      rw [hr] at hj
      rw [if_pos hm]
      injection hj with hj
      rw [hj]
    · rw [if_neg hm]
      exact ih (retries + 1) (by omega) (by omega)

/-- Claim C2 amended: when every attempt up to the fixed maximum (ten
retries, eleven requests) answers 429, request_with_retries returns the bare
final response object — a normal return, never an exhaustion error and never
a normal (response, body) pair. -/
theorem request_with_retries_exhausted_returns_bare {β : Type} (emptyBody : β)
    (attempts : Nat → Attempt β) (r : HttpResponse β)
    (H : ∀ j, j ≤ 10 → ∃ rj, attempts j = Attempt.resp rj ∧ rj.status = 429)
    (hr : attempts 10 = Attempt.resp r) :
    (request_with_retries emptyBody attempts).outcome = ReqOutcome.bare r ∧
    isExhaustionFailure (request_with_retries emptyBody attempts).outcome = false ∧
    ∀ (p : HttpResponse β) (d : β),
      (request_with_retries emptyBody attempts).outcome ≠ ReqOutcome.pair p d := by
  have hb : (request_with_retries emptyBody attempts).outcome = ReqOutcome.bare r :=
    rwrGo_all429 emptyBody attempts 10 r hr H 11 0 (by omega) (by omega)
  refine ⟨hb, by rw [hb]; rfl, ?_⟩
  intro p d hpair
  rw [hb] at hpair
  exact ReqOutcome.noConfusion hpair

theorem request_with_retries_exhausted_returns_bare_witness :
    (request_with_retries () always429).outcome = ReqOutcome.bare ⟨429, none, none⟩ ∧
    isExhaustionFailure (request_with_retries () always429).outcome = false :=
  have h := request_with_retries_exhausted_returns_bare () always429 ⟨429, none, none⟩
    (fun j _ => ⟨⟨429, none, none⟩, rfl, rfl⟩) rfl
  ⟨h.1, h.2.1⟩

/-- Claim C9: when retries are exhausted by 429s the function returns the
bare response object alone rather than a (response, decoded-body) pair, so a
caller that unpacks the result into two values — as get_all_keys,
get_key_detail and create_key_link all do — has nothing to unpack. -/
theorem exhausted_429_bare_response_fails_destructuring {β : Type} (emptyBody : β)
    (attempts : Nat → Attempt β) (r : HttpResponse β)
    (H : ∀ j, j ≤ 10 → ∃ rj, attempts j = Attempt.resp rj ∧ rj.status = 429)
    (hr : attempts 10 = Attempt.resp r) :
    (request_with_retries emptyBody attempts).outcome = ReqOutcome.bare r ∧
    destructureToPair (request_with_retries emptyBody attempts).outcome = none := by
  have hb : (request_with_retries emptyBody attempts).outcome = ReqOutcome.bare r :=
    rwrGo_all429 emptyBody attempts 10 r hr H 11 0 (by omega) (by omega)
  exact ⟨hb, by rw [hb]; rfl⟩

theorem exhausted_429_bare_response_fails_destructuring_witness :
    (request_with_retries () retryAfter5).outcome = ReqOutcome.bare ⟨429, some "5", none⟩ ∧
    destructureToPair (request_with_retries () retryAfter5).outcome = none :=
  exhausted_429_bare_response_fails_destructuring () retryAfter5 ⟨429, some "5", none⟩
    (fun j _ => ⟨⟨429, some "5", none⟩, rfl, rfl⟩) rfl

/-- In a run whose attempts before index retries + k are all retriable and
whose attempt retries + k is a not-yet-final 429, the k-th recorded sleep is
the delay the 429 row computes for that attempt. -/
theorem rwrGo_sleep_get {β : Type} (emptyBody : β) (attempts : Nat → Attempt β) (m : Nat) :
    ∀ fuel k retries, m < fuel + retries → retries + k < m →
      (∀ j, retries ≤ j → j < retries + k → attemptRetriable (attempts j) = true) →
      ∀ r, attempts (retries + k) = Attempt.resp r → r.status = 429 →
      (request_with_retries_go emptyBody attempts m fuel retries).sleeps[k]? =
        some (backoff429Delay r.retryAfter (retries + k)) := by
  intro fuel
  induction fuel with
  | zero => intro k retries h1 h2 hprev r hr h429; omega
  | succ f ih =>
    intro k retries h1 h2 hprev r hr h429
    simp only [request_with_retries_go]
    rw [if_neg (show ¬ m < retries by omega)]
    cases k with
    | zero =>
      rw [Nat.add_zero] at hr ⊢
      rw [hr]
      dsimp only
      rw [if_neg (show ¬ r.status ≠ 429 by simp [h429])]
      rw [if_neg (show ¬ m ≤ retries by omega)]
      simp
    | succ k2 =>
      have hre := hprev retries (le_refl _) (by omega)
      cases ha : attempts retries with
      | resp rr =>
        dsimp only
        have hrr : rr.status = 429 := by
          rw [ha] at hre
          simpa [attemptRetriable] using hre
        rw [if_neg (show ¬ rr.status ≠ 429 by simp [hrr])]
        rw [if_neg (show ¬ m ≤ retries by omega)]
        dsimp only
        rw [List.getElem?_cons_succ]
        have hx := ih k2 (retries + 1) (by omega) (by omega)
          (fun j hj1 hj2 => hprev j (by omega) (by omega)) r
          (by rw [show retries + 1 + k2 = retries + (k2 + 1) from by omega]; exact hr) h429
        rw [show retries + 1 + k2 = retries + (k2 + 1) from by omega] at hx
        exact hx
      | connError =>
        dsimp only
        rw [if_neg (show ¬ m ≤ retries by omega)]
        dsimp only
        rw [List.getElem?_cons_succ]
        have hx := ih k2 (retries + 1) (by omega) (by omega)
          (fun j hj1 hj2 => hprev j (by omega) (by omega)) r
          (by rw [show retries + 1 + k2 = retries + (k2 + 1) from by omega]; exact hr) h429
        rw [show retries + 1 + k2 = retries + (k2 + 1) from by omega] at hx
        exact hx

/-- Claim C4: when attempt k (0-based, below the maximum of 10) is a 429
reached after only retriable attempts, the k-th sleep is the Retry-After
value when that header is present with an integer value, and 2 ^ k seconds
when the header is absent or does not parse as an integer. -/
theorem backoff_delay_follows_retry_after_then_exponential {β : Type} (emptyBody : β)
    (attempts : Nat → Attempt β) (k : Nat) (r : HttpResponse β)
    (hk : k < 10)
    (hprev : ∀ j, j < k → attemptRetriable (attempts j) = true)
    (hatt : attempts k = Attempt.resp r) (h429 : r.status = 429) :
    (∀ s n, r.retryAfter = some s → pyParseInt s = some n →
      (request_with_retries emptyBody attempts).sleeps[k]? = some n) ∧
    ((r.retryAfter = none ∨ ∃ s, r.retryAfter = some s ∧ pyParseInt s = none) →
      (request_with_retries emptyBody attempts).sleeps[k]? = some ((2 : Int) ^ k)) := by
  have h := rwrGo_sleep_get emptyBody attempts 10 11 k 0 (by omega) (by omega)
    (fun j hj0 hjk => hprev j (by omega)) r (by simpa using hatt) h429
  simp only [Nat.zero_add] at h
  have h2 : (request_with_retries emptyBody attempts).sleeps[k]? =
      some (backoff429Delay r.retryAfter k) := h
  constructor
  · intro s n hs hn
    rw [h2]
    simp [backoff429Delay, hs, hn]
  · rintro (hnone | ⟨s, hs, hn⟩)
    · rw [h2]
      simp [backoff429Delay, hnone]
    · rw [h2]
      simp [backoff429Delay, hs, hn]

theorem backoff_delay_follows_retry_after_then_exponential_witness :
    (request_with_retries () retryAfter5).sleeps[0]? = some 5 ∧
    (request_with_retries () always429).sleeps[3]? = some ((2 : Int) ^ 3) :=
  ⟨(backoff_delay_follows_retry_after_then_exponential () retryAfter5 0 ⟨429, some "5", none⟩
      (by omega) (fun j hj => absurd hj (Nat.not_lt_zero j)) rfl rfl).1 "5" 5 rfl rfl,
   (backoff_delay_follows_retry_after_then_exponential () always429 3 ⟨429, none, none⟩
      (by omega) (fun j _ => rfl) rfl rfl).2 (Or.inl rfl)⟩

/-- An element of the scheduled-children list after addLink was already there
or is the freshly appended child id. -/
theorem mem_scheduledChildren_addLink {y cid pid : String} :
    ∀ (m : List (String × List String)), y ∈ scheduledChildren (addLink m pid cid) →
      y ∈ scheduledChildren m ∨ y = cid := by
  intro m
  induction m with
  | nil =>
    intro hy
    simp [addLink, scheduledChildren] at hy
    exact Or.inr hy
  | cons e rest ih =>
    intro hy
    obtain ⟨p, l⟩ := e
    simp only [addLink] at hy
    by_cases hp : p = pid
    · rw [if_pos hp] at hy
      simp only [scheduledChildren, List.mem_append, List.mem_singleton] at hy ⊢
      rcases hy with (hy | hy) | hy
      · exact Or.inl (Or.inl hy)
      · exact Or.inr hy
      · exact Or.inl (Or.inr hy)
    · rw [if_neg hp] at hy
      simp only [scheduledChildren, List.mem_append] at hy ⊢
      rcases hy with hy | hy
      · exact Or.inl (Or.inl hy)
      · rcases ih hy with hy | hy
        · exact Or.inl (Or.inr hy)
        · exact Or.inr hy

/-- A child id in an entry of the existing-links dict makes the global
already-linked check answer true. -/
theorem alreadyLinkedAnywhere_of_mem {linked : List (String × List String)} {x : String}
    (hx : ∃ e ∈ linked, x ∈ e.2) : alreadyLinkedAnywhere linked x = true := by
  obtain ⟨e, he, hxe⟩ := hx
  simp only [alreadyLinkedAnywhere, List.any_eq_true]
  exact ⟨e, he, by simpa using hxe⟩

/-- Anything linkStep adds to the scheduled children passed the global
already-linked check, i.e. was not linked to any observed parent. -/
theorem mem_scheduledChildren_linkStep {linked : List (String × List String)}
    {childMap : List (String × String)} {m : List (String × List String)}
    {pk : PhraseKey} {y : String}
    (hy : y ∈ scheduledChildren (linkStep linked childMap m pk)) :
    y ∈ scheduledChildren m ∨ alreadyLinkedAnywhere linked y = false := by
  obtain ⟨oid, oname⟩ := pk
  cases oid with
  | none => exact Or.inl (by simpa [linkStep] using hy)
  | some pid =>
    cases oname with
    | none => exact Or.inl (by simpa [linkStep] using hy)
    | some pname =>
      simp only [linkStep] at hy
      by_cases h0 : (pid = "" || pname = "") = true
      · rw [if_pos h0] at hy
        exact Or.inl hy
      · rw [if_neg h0] at hy
        cases hcd : pyDictGetLast childMap pname with
        | none => rw [hcd] at hy; exact Or.inl hy
        | some cid =>
          rw [hcd] at hy
          dsimp only at hy
          by_cases h1 : cid = ""
          · rw [if_pos h1] at hy
            exact Or.inl hy
          · rw [if_neg h1] at hy
            by_cases h2 : alreadyLinkedToThisParent linked pid cid = true
            · rw [if_pos h2] at hy
              exact Or.inl hy
            · rw [if_neg h2] at hy
              by_cases h3 : alreadyLinkedAnywhere linked cid = true
              · rw [if_pos h3] at hy
                exact Or.inl hy
              · rw [if_neg h3] at hy
                rcases mem_scheduledChildren_addLink m hy with hy2 | hy2
                · exact Or.inl hy2
                · subst hy2
                  exact Or.inr (Bool.eq_false_iff.mpr h3)

/-- Claim C3 (the code violates it): in a run with two parent keys that share
the name "n" and one child project holding a key (n, x), with no existing
links observed, child x is matched to both parents and a link-creation call
naming x is scheduled twice, not at most once: the dedup checks only the
fetched existing links, not what was matched earlier in the same run. -/
theorem double_matched_child_scheduled_twice :
    (scheduledChildren (scheduleLinks sameNameParents ["c"] oneChildX [])).count "x" = 2 ∧
    ¬ (scheduledChildren (scheduleLinks sameNameParents ["c"] oneChildX [])).count "x" ≤ 1 := by
  exact ⟨by decide, by decide⟩

/-- Claim C3 amended: a child key observed as already linked to this or any
other observed parent in the existing-links fetch is excluded and never
scheduled for link creation; the dedup does not extend to children matched
for another parent earlier in the same run. -/
theorem linked_child_never_scheduled (parent_keys : List PhraseKey)
    (child_projects : List String) (childKeysFor : String → String → List ChildKey)
    (linked : List (String × List String)) (x : String)
    (hx : ∃ e ∈ linked, x ∈ e.2) :
    x ∉ scheduledChildren (scheduleLinks parent_keys child_projects childKeysFor linked) := by
  unfold scheduleLinks
  refine foldl_invariant (P := fun m => x ∉ scheduledChildren m) ?_ (chunks100 parent_keys) []
    (by intro hmem; simp [scheduledChildren] at hmem)
  intro m batch hm
  refine foldl_invariant (P := fun m => x ∉ scheduledChildren m) ?_ child_projects m hm
  intro m2 cp hm2
  dsimp only
  split
  · exact hm2
  · refine foldl_invariant (P := fun m => x ∉ scheduledChildren m) ?_ batch m2 hm2
    intro m3 pk hm3 hmem
    rcases mem_scheduledChildren_linkStep hmem with h | h
    · exact hm3 h
    · rw [alreadyLinkedAnywhere_of_mem hx] at h
      exact Bool.noConfusion h

theorem linked_child_never_scheduled_witness :
    (∃ e ∈ xAlreadyLinked, "x" ∈ e.2) ∧
    "x" ∉ scheduledChildren (scheduleLinks oneParent ["c"] oneChildX xAlreadyLinked) :=
  ⟨by decide,
   linked_child_never_scheduled oneParent ["c"] oneChildX xAlreadyLinked "x" (by decide)⟩

/-- Membership in the filtered-and-sorted candidate list: exactly the users
of the project created strictly after the cutoff. -/
theorem mem_sortedCandidates {cutoff : Int} {users : List PUser} {u : PUser} :
    u ∈ sortedCandidates cutoff users ↔ u ∈ users ∧ cutoff < userKey u := by
  unfold sortedCandidates
  rw [List.mem_insertionSort]
  simp [List.mem_filter]

/-- The candidate list is sorted descending by creation time. -/
theorem sortedCandidates_sorted (cutoff : Int) (users : List PUser) :
    (sortedCandidates cutoff users).Sorted (fun a b => userKey b ≤ userKey a) := by
  haveI h1 : IsTotal PUser (fun a b => userKey b ≤ userKey a) :=
    ⟨fun a b => Int.le_total (userKey b) (userKey a)⟩
  haveI h2 : IsTrans PUser (fun a b => userKey b ≤ userKey a) :=
    ⟨fun _ _ _ hab hbc => le_trans hbc hab⟩
  exact List.sorted_insertionSort _ _

/-- When the project is non-empty, every record carries its timestamp, and
the candidates exceed the limit, the run removes exactly the ids present on
the leading excess slice of the descending-sorted candidates. -/
theorem processProject_removed (cutoff : Int) (users : List PUser)
    (hne : users ≠ []) (hall : ∀ u ∈ users, u.created_at.isSome = true)
    (hlen : USER_LIMIT < (sortedCandidates cutoff users).length) :
    processProject cutoff users = ProjectResult.removed
      (((sortedCandidates cutoff users).take
          ((sortedCandidates cutoff users).length - USER_LIMIT)).filterMap (fun u => u.id)) := by
  unfold processProject
  rw [if_neg (show ¬ users.isEmpty = true by simpa [List.isEmpty_iff] using hne)]
  rw [if_pos (List.all_eq_true.mpr (fun u hu => hall u hu))]
  dsimp only
  rw [if_pos (show (0 : Int) < ((sortedCandidates cutoff users).length : Int) - (USER_LIMIT : Int)
        by omega)]
  rw [show (((sortedCandidates cutoff users).length : Int) - (USER_LIMIT : Int)).toNat
        = (sortedCandidates cutoff users).length - USER_LIMIT from by omega]

/-- Claim C7: only users created strictly after the cutoff are candidates;
the candidates are sorted descending by creation time; when they exceed the
limit, exactly the excess leading (most recently created) candidates are
selected for removal, each at least as new as every survivor; users at or
before the cutoff are never candidates. -/
theorem quota_prune_selects_newest_excess (cutoff : Int) (users : List PUser)
    (hne : users ≠ []) (hall : ∀ u ∈ users, u.created_at.isSome = true) :
    (∀ u ∈ sortedCandidates cutoff users, cutoff < userKey u) ∧
    (sortedCandidates cutoff users).Sorted (fun a b => userKey b ≤ userKey a) ∧
    (USER_LIMIT < (sortedCandidates cutoff users).length →
      processProject cutoff users = ProjectResult.removed
        (((sortedCandidates cutoff users).take
            ((sortedCandidates cutoff users).length - USER_LIMIT)).filterMap (fun u => u.id)) ∧
      ((sortedCandidates cutoff users).take
          ((sortedCandidates cutoff users).length - USER_LIMIT)).length =
        (sortedCandidates cutoff users).length - USER_LIMIT) ∧
    (∀ u ∈ (sortedCandidates cutoff users).take
        ((sortedCandidates cutoff users).length - USER_LIMIT),
      ∀ v ∈ (sortedCandidates cutoff users).drop
        ((sortedCandidates cutoff users).length - USER_LIMIT),
      userKey v ≤ userKey u) ∧
    (∀ u ∈ users, ¬ cutoff < userKey u → u ∉ sortedCandidates cutoff users) := by
  refine ⟨?_, sortedCandidates_sorted cutoff users, ?_, ?_, ?_⟩
  · intro u hu
    exact (mem_sortedCandidates.mp hu).2
  · intro hlen
    refine ⟨processProject_removed cutoff users hne hall hlen, ?_⟩
    rw [List.length_take]
    omega
  · intro u hu v hv
    exact (sortedCandidates_sorted cutoff users).rel_of_mem_take_of_mem_drop hu hv
  · intro u _ hnot hmem
    exact hnot (mem_sortedCandidates.mp hmem).2

theorem quota_prune_selects_newest_excess_witness :
    mkUsers 160 ≠ [] ∧
    USER_LIMIT < (sortedCandidates 0 (mkUsers 160)).length ∧
    processProject 0 (mkUsers 160) = ProjectResult.removed
      (((sortedCandidates 0 (mkUsers 160)).take
          ((sortedCandidates 0 (mkUsers 160)).length - USER_LIMIT)).filterMap (fun u => u.id)) :=
  ⟨by decide, by decide,
   ((quota_prune_selects_newest_excess 0 (mkUsers 160) (by decide) (by decide)).2.2.1
      (by decide)).1⟩

/-- Claim C6 (the code violates it): one record with a missing creation
timestamp makes the filter/sort KeyError handler skip the WHOLE project —
the 151 complete post-cutoff records of the same project, which on their own
would have one user removed, are all discarded with it, so the skip is not
confined to the single bad record. -/
theorem missing_timestamp_skips_whole_project :
    processProject 0 (noStampUser :: mkUsers 151) = ProjectResult.keyErrorSkip ∧
    processProject 0 ((noStampUser :: mkUsers 151).filter (fun u => u.created_at.isSome))
      = ProjectResult.removed ["u"] := by
  exact ⟨by decide, by decide⟩

/-- Claim C6 amended: a record missing its identifier is skipped one record
at a time during removal, and one project's outcome never stops the
processing of the other projects; but a record missing its creation
timestamp makes the run skip that project's whole record set, not just the
one record. -/
theorem partial_data_skip_granularity (cutoff : Int) (users : List PUser)
    (projects : List (String × List PUser)) (pid : String) :
    ((∃ u ∈ users, u.created_at = none) →
      processProject cutoff users = ProjectResult.keyErrorSkip) ∧
    (users ≠ [] → (∀ u ∈ users, u.created_at.isSome = true) →
      USER_LIMIT < (sortedCandidates cutoff users).length →
      processProject cutoff users = ProjectResult.removed
        (((sortedCandidates cutoff users).take
            ((sortedCandidates cutoff users).length - USER_LIMIT)).filterMap (fun u => u.id))) ∧
    ((pid, users) ∈ projects →
      (pid, processProject cutoff users) ∈ remove_excess_users cutoff projects) := by
  refine ⟨?_, processProject_removed cutoff users, ?_⟩
  · rintro ⟨u, hu, hnone⟩
    unfold processProject
    rw [if_neg (show ¬ users.isEmpty = true by
      simpa [List.isEmpty_iff] using List.ne_nil_of_mem hu)]
    rw [if_neg (show ¬ users.all (fun u => u.created_at.isSome) = true by
      simp only [List.all_eq_true, not_forall]
      exact ⟨u, hu, by simp [hnone]⟩)]
  · intro hmem
    unfold remove_excess_users
    exact List.mem_map.mpr ⟨(pid, users), hmem, rfl⟩

theorem partial_data_skip_granularity_witness :
    processProject 0 (noStampUser :: mkUsers 1) = ProjectResult.keyErrorSkip ∧
    processProject 0 (mkUsers 151) = ProjectResult.removed
      (((sortedCandidates 0 (mkUsers 151)).take
          ((sortedCandidates 0 (mkUsers 151)).length - USER_LIMIT)).filterMap (fun u => u.id)) ∧
    ("p", processProject 0 (mkUsers 151)) ∈ remove_excess_users 0 [("p", mkUsers 151)] :=
  ⟨(partial_data_skip_granularity 0 (noStampUser :: mkUsers 1) [] "p").1
      ⟨noStampUser, by decide, rfl⟩,
   (partial_data_skip_granularity 0 (mkUsers 151) [] "p").2.1 (by decide) (by decide) (by decide),
   (partial_data_skip_granularity 0 (mkUsers 151) [("p", mkUsers 151)] "p").2.2 (by decide)⟩

/-- Claim C10: a user whose creation timestamp equals the cutoff exactly is
excluded by the strict greater-than filter and is never a removal candidate,
hence never on the removed slice. -/
theorem boundary_timestamp_user_never_candidate (cutoff : Int) (users : List PUser)
    (u : PUser) (hu : u.created_at = some cutoff) :
    u ∉ sortedCandidates cutoff users ∧
    ∀ n, u ∉ (sortedCandidates cutoff users).take n := by
  have h1 : u ∉ sortedCandidates cutoff users := by
    intro hmem
    have h2 := (mem_sortedCandidates.mp hmem).2
    rw [userKey, hu] at h2
    exact lt_irrefl cutoff h2
  exact ⟨h1, fun n hn => h1 (List.take_subset n _ hn)⟩

theorem boundary_timestamp_user_never_candidate_witness :
    (⟨some 5, some "w"⟩ : PUser).created_at = some 5 ∧
    (⟨some 5, some "w"⟩ : PUser) ∉ sortedCandidates 5 [⟨some 5, some "w"⟩, ⟨some 6, some "v"⟩] ∧
    (⟨some 5, some "w"⟩ : PUser) ∉
      (sortedCandidates 5 [⟨some 5, some "w"⟩, ⟨some 6, some "v"⟩]).take 1 :=
  have h := boundary_timestamp_user_never_candidate 5 [⟨some 5, some "w"⟩, ⟨some 6, some "v"⟩]
    ⟨some 5, some "w"⟩ rfl
  ⟨rfl, h.1, h.2 1⟩
